import Mathlib

/-!
Shallow embedding of `src/core/sd_logger.py` (class `LoggerCSV`) and proofs
of the specification claims about it.

Modelling conventions:
* The external state visible to the logger is the single target file
  `<sd_mountpoint>/<file_name>` plus the mount point itself; we model it as
  `FileSystem`: a `mounted` flag (whether `os.stat(sd_mountpoint)` succeeds)
  and `file : Option String` (the target file's content, `none` if the file
  does not exist, so that `os.stat(file_path)` raises).
* Opening a file in append mode (`open(path, mode="a")`) creates it when
  missing, hence `appendToFile` uses `Option.getD ""`.
* Python exceptions are modelled by an explicit error component: operations
  return their mutated state together with `Option LogError` (`none` = normal
  return).  A possibly-failing `file.write` during a flush is modelled by a
  `writeOk : Bool` parameter: `writeOk = false` means the write raises
  `IOError`/`OSError`.  Note that in the source, mutations performed before
  the raising statement (such as `_serialize_buffer` clearing the buffer)
  persist on the object, which the model reflects.
* `gc.collect()` is a memory-reclamation hint with no observable state,
  omitted.
-/

/-- Errors of the program: `SDNotMountedError`, `InvalideRecordError`
(spelling as in the source) and the runtime `IOError`/`OSError` of a failing
file write. -/
inductive LogError where
  | sdNotMounted
  | invalidRecord
  | ioError
deriving DecidableEq, Repr

/-- The filesystem state seen by the logger: whether the SD mount point
stats successfully, and the content of the single target file (`none` when
the file does not exist). -/
structure FileSystem where
  mounted : Bool
  file : Option String
deriving DecidableEq, Repr

/-- The mutable attributes of a `LoggerCSV` instance (the path components
are fixed at construction and determine the single modelled target file, so
they are not carried). -/
structure LoggerCSV where
  buffer_size : Int
  csv_headers : Option (List String)
  delimiter : String
  buffer : List String
deriving DecidableEq, Repr

/-- Python `sep.join(xs)`: empty string on `[]`, the sole element on a
singleton, elements interleaved with `sep` otherwise. -/
def strJoin (sep : String) : List String → String
  | [] => ""
  | [x] => x
  | x :: y :: ys => x ++ sep ++ strJoin sep (y :: ys)

/-- Python `"\n" in record` (membership of the newline character). -/
def contains_newline (s : String) : Bool :=
  decide ('\n' ∈ s.data)

/-- `open(file_path, mode="a")` followed by `file.write(s)` and close:
appends `s` to the file, creating it when missing. -/
def appendToFile (fs : FileSystem) (s : String) : FileSystem :=
  { fs with file := some (fs.file.getD "" ++ s) }

/-- `LoggerCSV._verify_sd_mounted`: raises `SDNotMountedError` when
`os.stat(sd_mountpoint)` fails. -/
def verify_sd_mounted (fs : FileSystem) : Option LogError :=
  if fs.mounted then none else some .sdNotMounted

/-- `LoggerCSV._file_exists`: whether `os.stat(file_path)` succeeds. -/
def file_exists (fs : FileSystem) : Bool :=
  fs.file.isSome

/-- `LoggerCSV._create_csv_with_headers`: if the file does not exist and
headers were supplied, create the file (mode `"w"`) holding the headers
joined by the delimiter plus a newline; otherwise do nothing. -/
def create_csv_with_headers (l : LoggerCSV) (fs : FileSystem) : FileSystem :=
  if file_exists fs then fs
  else
    match l.csv_headers with
    | none => fs
    | some hs => { fs with file := some (strJoin l.delimiter hs ++ "\n") }

/-- `LoggerCSV.__init__` plus `_post_init`: build the instance
(`delimiter = ";"`, empty buffer), verify the mount, create headers.
Returns the constructed logger (or the raised error) with the resulting
filesystem. -/
def loggerCSV_init (buffer_size : Int) (csv_headers : Option (List String))
    (fs : FileSystem) : Except LogError LoggerCSV × FileSystem :=
  match verify_sd_mounted fs with
  | some e => (.error e, fs)
  | none =>
    let l : LoggerCSV := ⟨buffer_size, csv_headers, ";", []⟩
    (.ok l, create_csv_with_headers l fs)

/-- `LoggerCSV._buffer_full`: `len(self.buffer) >= self.buffer_size`. -/
def buffer_full (l : LoggerCSV) : Bool :=
  (l.buffer.length : Int) ≥ l.buffer_size

/-- `LoggerCSV._add_record_to_buffer`: `self.buffer.append(record)`. -/
def add_record_to_buffer (l : LoggerCSV) (record : String) : LoggerCSV :=
  { l with buffer := l.buffer ++ [record] }

/-- `LoggerCSV._serialize_buffer`: joins the buffer with newlines, appends a
trailing newline, and clears the buffer (the clear happens here, before any
file write). Returns the serialized string and the mutated instance. -/
def serialize_buffer (l : LoggerCSV) : String × LoggerCSV :=
  (strJoin "\n" l.buffer ++ "\n", { l with buffer := [] })

/-- `LoggerCSV._write_buffer_to_file`: serialize the buffer (which clears
it), then append the serialized block to the file; `writeOk = false` models
the write raising `IOError`, in which case the file is unchanged but the
buffer mutation has already happened. -/
def write_buffer_to_file (writeOk : Bool) (l : LoggerCSV) (fs : FileSystem) :
    LoggerCSV × FileSystem × Option LogError :=
  let p := serialize_buffer l
  if writeOk then (p.2, appendToFile fs p.1, none)
  else (p.2, fs, some .ioError)

/-- `LoggerCSV._validate_record`: raises `InvalideRecordError` on an embedded
newline.  NOTE: this helper is defined in the source but never called from
any write path. -/
def validate_record (record : String) : Option LogError :=
  if contains_newline record then some .invalidRecord else none

/-- `LoggerCSV.write_record_with_buffer`: append the record to the buffer,
then flush if the buffer is full.  (No call to `_validate_record` appears in
the source.) -/
def write_record_with_buffer (writeOk : Bool) (record : String)
    (l : LoggerCSV) (fs : FileSystem) : LoggerCSV × FileSystem × Option LogError :=
  let l1 := add_record_to_buffer l record
  if buffer_full l1 then write_buffer_to_file writeOk l1 fs
  else (l1, fs, none)

/-- `LoggerCSV.write_record`: append `record + "\n"` directly to the file,
bypassing the buffer.  (No call to `_validate_record` appears in the
source.) -/
def write_record (writeOk : Bool) (record : String)
    (l : LoggerCSV) (fs : FileSystem) : LoggerCSV × FileSystem × Option LogError :=
  if writeOk then (l, appendToFile fs (record ++ "\n"), none)
  else (l, fs, some .ioError)

/-- `LoggerCSV.__del__`: flush the buffer when it is non-empty
(`if self.buffer:`), otherwise do nothing. -/
def logger_del (writeOk : Bool) (l : LoggerCSV) (fs : FileSystem) :
    LoggerCSV × FileSystem × Option LogError :=
  if l.buffer.isEmpty then (l, fs, none)
  else write_buffer_to_file writeOk l fs

/-- Runs a sequence of `write_record_with_buffer` calls in order (each call
succeeding, i.e. no `IOError`). -/
def runBuffered (records : List String) (s : LoggerCSV × FileSystem) :
    LoggerCSV × FileSystem :=
  records.foldl
    (fun s r =>
      let t := write_record_with_buffer true r s.1 s.2
      (t.1, t.2.1)) s

/-! Read-back functions used to state the claims (what an observer reading
the produced file sees). -/

/-- The file content each record of the list followed by one newline,
concatenated in order.  This is the spec's description of the data the
logger should persist. -/
def catRecords : List String → String
  | [] => ""
  | r :: rs => r ++ "\n" ++ catRecords rs

/-- Splits a character sequence into its newline-separated lines; a
terminating newline closes the last line. -/
def linesAux : List Char → List (List Char)
  | [] => []
  | c :: rest =>
    if c = '\n' then [] :: linesAux rest
    else
      match linesAux rest with
      | [] => [[c]]
      | line :: ls => (c :: line) :: ls

/-- The lines of a file content, read back in order. -/
def recordLines (s : String) : List String :=
  (linesAux s.data).map String.mk

/-- The file content the observer obtains by reading the target file (empty
when the file does not exist). -/
def readFile (fs : FileSystem) : String :=
  fs.file.getD ""

/-- The block a flush of the current buffer would append: empty when the
buffer is empty (no flush pending at teardown). -/
def pendingBlock (l : LoggerCSV) : String :=
  if l.buffer = [] then "" else strJoin "\n" l.buffer ++ "\n"

/-- The file content after the teardown flush: current content plus the
pending block. -/
def finalContent (l : LoggerCSV) (fs : FileSystem) : String :=
  readFile fs ++ pendingBlock l

/-! Helper lemmas. -/

theorem strJoin_append_last (sep r : String) (xs : List String) (h : xs ≠ []) :
    strJoin sep (xs ++ [r]) = strJoin sep xs ++ sep ++ r := by
  induction xs with
  | nil => exact absurd rfl h
  | cons x xs ih =>
    rcases xs with _ | ⟨y, ys⟩
    · simp [strJoin]
    · have h2 := ih (List.cons_ne_nil y ys)
      simp only [List.cons_append] at h2 ⊢
      simp only [strJoin]
      rw [h2]
      simp [String.append_assoc]

theorem strJoin_snoc_newline (b : List String) (r : String) :
    strJoin "\n" (b ++ [r]) ++ "\n"
      = (if b = [] then "" else strJoin "\n" b ++ "\n") ++ (r ++ "\n") := by
  rcases b with _ | ⟨x, xs⟩
  · simp [strJoin]
  · rw [strJoin_append_last _ _ _ (List.cons_ne_nil x xs)]
    simp [String.append_assoc]

theorem strJoin_newline_catRecords (xs : List String) (h : xs ≠ []) :
    strJoin "\n" xs ++ "\n" = catRecords xs := by
  induction xs with
  | nil => exact absurd rfl h
  | cons x xs ih =>
    rcases xs with _ | ⟨y, ys⟩
    · simp [strJoin, catRecords]
    · have h2 := ih (List.cons_ne_nil y ys)
      simp only [strJoin, catRecords] at h2 ⊢
      rw [← h2]
      simp [String.append_assoc]

theorem linesAux_line_append (cs rest : List Char) (h : '\n' ∉ cs) :
    linesAux (cs ++ '\n' :: rest) = cs :: linesAux rest := by
  induction cs with
  | nil => simp [linesAux]
  | cons c cs ih =>
    have hc : ¬ c = '\n' := fun e => h (by simp [e])
    have h2 : '\n' ∉ cs := fun m => h (by simp [m])
    simp [linesAux, hc, ih h2]

theorem recordLines_catRecords (records : List String)
    (h : ∀ r ∈ records, contains_newline r = false) :
    recordLines (catRecords records) = records := by
  induction records with
  | nil => rfl
  | cons r rs ih =>
    have hr : '\n' ∉ r.data := by
      have := h r (by simp)
      simpa [contains_newline] using this
    have hn : ("\n" : String).data = ['\n'] := rfl
    have hdata : (catRecords (r :: rs)).data
        = r.data ++ '\n' :: (catRecords rs).data := by
      show (r ++ "\n" ++ catRecords rs).data = _
      simp [String.data_append, hn]
    have ih2 := ih (fun x hx => h x (by simp [hx]))
    simp only [recordLines] at ih2 ⊢
    rw [hdata, linesAux_line_append _ _ hr]
    simp [ih2]


theorem write_buffered_eq (writeOk : Bool) (r : String)
    (l : LoggerCSV) (fs : FileSystem) :
    write_record_with_buffer writeOk r l fs
      = if buffer_full (add_record_to_buffer l r) = true
        then write_buffer_to_file writeOk (add_record_to_buffer l r) fs
        else (add_record_to_buffer l r, fs, none) := rfl

theorem write_buffer_to_file_true (l : LoggerCSV) (fs : FileSystem) :
    write_buffer_to_file true l fs
      = ({ l with buffer := [] },
          appendToFile fs (strJoin "\n" l.buffer ++ "\n"), none) := rfl

theorem write_buffered_finalContent (r : String) (l : LoggerCSV) (fs : FileSystem) :
    finalContent (write_record_with_buffer true r l fs).1
        (write_record_with_buffer true r l fs).2.1
      = finalContent l fs ++ (r ++ "\n") := by
  have hkey := strJoin_snoc_newline l.buffer r
  have hne : l.buffer ++ [r] ≠ [] := by simp
  rw [write_buffered_eq]
  by_cases hf : buffer_full (add_record_to_buffer l r) = true
  · rw [if_pos hf, write_buffer_to_file_true]
    simp [finalContent, readFile, pendingBlock, appendToFile,
      add_record_to_buffer, hkey, String.append_assoc]
  · rw [if_neg hf]
    simp [finalContent, readFile, pendingBlock, add_record_to_buffer,
      hne, hkey, String.append_assoc]

theorem write_buffered_err (r : String) (l : LoggerCSV) (fs : FileSystem) :
    (write_record_with_buffer true r l fs).2.2 = none := by
  rw [write_buffered_eq]
  split
  · simp [write_buffer_to_file, serialize_buffer]
  · rfl

theorem write_buffered_isSome (r : String) (l : LoggerCSV) (fs : FileSystem)
    (h : fs.file.isSome = true) :
    (write_record_with_buffer true r l fs).2.1.file.isSome = true := by
  rw [write_buffered_eq]
  split
  · simp [write_buffer_to_file, serialize_buffer, appendToFile]
  · exact h

theorem write_buffered_occupancy (cap : Int) (hcap : 1 ≤ cap) (r : String)
    (l : LoggerCSV) (fs : FileSystem)
    (h1 : l.buffer_size = cap) (h2 : (l.buffer.length : Int) < cap) :
    (write_record_with_buffer true r l fs).1.buffer_size = cap ∧
      ((write_record_with_buffer true r l fs).1.buffer.length : Int) < cap := by
  rw [write_buffered_eq]
  by_cases hf : buffer_full (add_record_to_buffer l r) = true
  · rw [if_pos hf]
    refine ⟨by simp [write_buffer_to_file, serialize_buffer, add_record_to_buffer, h1], ?_⟩
    simp [write_buffer_to_file, serialize_buffer, add_record_to_buffer]
    omega
  · rw [if_neg hf]
    refine ⟨by simp [add_record_to_buffer, h1], ?_⟩
    simp only [buffer_full, add_record_to_buffer, h1, List.length_append,
      List.length_singleton, ge_iff_le, decide_eq_true_eq, not_le] at hf
    simp only [add_record_to_buffer, List.length_append, List.length_singleton]
    push_cast at hf ⊢
    omega

theorem runBuffered_cons (r : String) (rs : List String)
    (l : LoggerCSV) (fs : FileSystem) :
    runBuffered (r :: rs) (l, fs)
      = runBuffered rs ((write_record_with_buffer true r l fs).1,
          (write_record_with_buffer true r l fs).2.1) := rfl

theorem runBuffered_finalContent (records : List String) :
    ∀ (l : LoggerCSV) (fs : FileSystem),
      finalContent (runBuffered records (l, fs)).1 (runBuffered records (l, fs)).2
        = finalContent l fs ++ catRecords records := by
  induction records with
  | nil => intro l fs; simp [runBuffered, catRecords]
  | cons r rs ih =>
    intro l fs
    rw [runBuffered_cons, ih, write_buffered_finalContent]
    simp [catRecords, String.append_assoc]

theorem runBuffered_isSome (records : List String) :
    ∀ (l : LoggerCSV) (fs : FileSystem), fs.file.isSome = true →
      (runBuffered records (l, fs)).2.file.isSome = true := by
  induction records with
  | nil => intro l fs h; exact h
  | cons r rs ih =>
    intro l fs h
    rw [runBuffered_cons]
    exact ih _ _ (write_buffered_isSome r l fs h)

theorem runBuffered_occupancy (cap : Int) (hcap : 1 ≤ cap) (records : List String) :
    ∀ (l : LoggerCSV) (fs : FileSystem), l.buffer_size = cap →
      (l.buffer.length : Int) < cap →
      (runBuffered records (l, fs)).1.buffer_size = cap ∧
        ((runBuffered records (l, fs)).1.buffer.length : Int) < cap := by
  induction records with
  | nil => intro l fs h1 h2; exact ⟨h1, h2⟩
  | cons r rs ih =>
    intro l fs h1 h2
    rw [runBuffered_cons]
    exact ih _ _ (write_buffered_occupancy cap hcap r l fs h1 h2).1
      (write_buffered_occupancy cap hcap r l fs h1 h2).2

theorem option_eq_some_getD (o : Option String) (h : o.isSome = true) :
    o = some (o.getD "") := by
  cases o with
  | none => cases h
  | some v => rfl

theorem logger_del_spec (l : LoggerCSV) (fs : FileSystem) :
    (logger_del true l fs).1.buffer = [] ∧ (logger_del true l fs).2.2 = none ∧
      readFile (logger_del true l fs).2.1 = finalContent l fs := by
  rcases hb : l.buffer with _ | ⟨x, xs⟩
  · simp [logger_del, hb, finalContent, pendingBlock, readFile]
  · simp [logger_del, hb, write_buffer_to_file, serialize_buffer, appendToFile,
      finalContent, pendingBlock, readFile]

theorem logger_del_isSome (l : LoggerCSV) (fs : FileSystem)
    (h : fs.file.isSome = true) :
    (logger_del true l fs).2.1.file.isSome = true := by
  rcases hb : l.buffer with _ | ⟨x, xs⟩ <;>
    simp [logger_del, hb, write_buffer_to_file, serialize_buffer, appendToFile, h]

/-! Claim theorems. -/

/-- Claim C1: for every sequence of `write_record_with_buffer` calls whose
records contain no newline, the record lines appended to the target file
(read back in order, after the teardown flush of the remaining buffer)
equal the sequence of submitted records in call order, regardless of where
the automatic flush boundaries fell (any `buffer_size`); and each flush
appends the pending records joined by a newline separator with one trailing
newline, in append mode. -/
theorem flush_boundary_invisibility
    (cap : Int) (headers : Option (List String)) (m : Bool) (f0 : String)
    (records : List String) (l2 : LoggerCSV) (fs2 : FileSystem)
    (hnl : ∀ r ∈ records, contains_newline r = false) :
    (logger_del true (runBuffered records (⟨cap, headers, ";", []⟩, ⟨m, some f0⟩)).1
        (runBuffered records (⟨cap, headers, ";", []⟩, ⟨m, some f0⟩)).2).2.1.file
      = some (f0 ++ catRecords records)
    ∧ (logger_del true (runBuffered records (⟨cap, headers, ";", []⟩, ⟨m, some f0⟩)).1
        (runBuffered records (⟨cap, headers, ";", []⟩, ⟨m, some f0⟩)).2).1.buffer = []
    ∧ (logger_del true (runBuffered records (⟨cap, headers, ";", []⟩, ⟨m, some f0⟩)).1
        (runBuffered records (⟨cap, headers, ";", []⟩, ⟨m, some f0⟩)).2).2.2 = none
    ∧ recordLines (catRecords records) = records
    ∧ write_buffer_to_file true l2 fs2
        = ({ l2 with buffer := [] },
            appendToFile fs2 (strJoin "\n" l2.buffer ++ "\n"), none) := by
  obtain ⟨hbuf, herr, hread⟩ :=
    logger_del_spec (runBuffered records (⟨cap, headers, ";", []⟩, ⟨m, some f0⟩)).1
      (runBuffered records (⟨cap, headers, ";", []⟩, ⟨m, some f0⟩)).2
  refine ⟨?_, hbuf, herr, recordLines_catRecords records hnl,
    write_buffer_to_file_true l2 fs2⟩
  have hsome : ((⟨m, some f0⟩ : FileSystem)).file.isSome = true := rfl
  have hs2 := runBuffered_isSome records ⟨cap, headers, ";", []⟩ ⟨m, some f0⟩ hsome
  have hds := logger_del_isSome
    (runBuffered records (⟨cap, headers, ";", []⟩, ⟨m, some f0⟩)).1
    (runBuffered records (⟨cap, headers, ";", []⟩, ⟨m, some f0⟩)).2 hs2
  rw [option_eq_some_getD _ hds]
  congr 1
  have hfc := runBuffered_finalContent records ⟨cap, headers, ";", []⟩ ⟨m, some f0⟩
  have hinit : finalContent ⟨cap, headers, ";", []⟩ ⟨m, some f0⟩ = f0 := by
    simp [finalContent, readFile, pendingBlock]
  have hgoal : readFile (logger_del true
      (runBuffered records (⟨cap, headers, ";", []⟩, ⟨m, some f0⟩)).1
      (runBuffered records (⟨cap, headers, ";", []⟩, ⟨m, some f0⟩)).2).2.1
        = f0 ++ catRecords records := by
    rw [hread, hfc, hinit]
  exact hgoal

/-- Witness for C1: a concrete run of three records at capacity two, plus a
concrete flush. -/
theorem flush_boundary_invisibility_holds :
    (logger_del true (runBuffered ["r1", "r2", "r3"] (⟨2, none, ";", []⟩, ⟨true, some "h\n"⟩)).1
        (runBuffered ["r1", "r2", "r3"] (⟨2, none, ";", []⟩, ⟨true, some "h\n"⟩)).2).2.1.file
      = some ("h\n" ++ catRecords ["r1", "r2", "r3"])
    ∧ (logger_del true (runBuffered ["r1", "r2", "r3"] (⟨2, none, ";", []⟩, ⟨true, some "h\n"⟩)).1
        (runBuffered ["r1", "r2", "r3"] (⟨2, none, ";", []⟩, ⟨true, some "h\n"⟩)).2).1.buffer = []
    ∧ (logger_del true (runBuffered ["r1", "r2", "r3"] (⟨2, none, ";", []⟩, ⟨true, some "h\n"⟩)).1
        (runBuffered ["r1", "r2", "r3"] (⟨2, none, ";", []⟩, ⟨true, some "h\n"⟩)).2).2.2 = none
    ∧ recordLines (catRecords ["r1", "r2", "r3"]) = ["r1", "r2", "r3"]
    ∧ write_buffer_to_file true ⟨2, none, ";", ["a", "b"]⟩ ⟨true, some "x\n"⟩
        = (⟨2, none, ";", []⟩,
            appendToFile ⟨true, some "x\n"⟩ (strJoin "\n" ["a", "b"] ++ "\n"), none) :=
  flush_boundary_invisibility 2 none true "h\n" ["r1", "r2", "r3"]
    ⟨2, none, ";", ["a", "b"]⟩ ⟨true, some "x\n"⟩ (by decide)

/-- Claim C2 (refuted by the code): the claim says a failed flush leaves
`pending_records` unchanged; in the source, `_serialize_buffer` clears the
buffer before the file write, so when the write raises `IOError` the two
buffered records are already discarded (buffer `[]`, file unchanged, error
raised). -/
theorem flush_failure_discards_buffer :
    write_buffer_to_file false ⟨60, none, ";", ["r1", "r2"]⟩ ⟨true, some "h\n"⟩
      = (⟨60, none, ";", []⟩, ⟨true, some "h\n"⟩, some .ioError) := rfl

/-- Claim C3 (refuted by the code): the claim says both write paths reject a
record containing a newline with `InvalidRecordError` and leave state
unchanged; in the source neither `write_record_with_buffer` nor
`write_record` calls `_validate_record`, so the record `"a\nb"` is buffered
(resp. written) with no error — even though the never-invoked helper
`_validate_record` would have rejected it. -/
theorem newline_record_not_rejected :
    write_record_with_buffer true "a\nb" ⟨3, none, ";", []⟩ ⟨true, some ""⟩
      = (⟨3, none, ";", ["a\nb"]⟩, ⟨true, some ""⟩, none)
    ∧ write_record true "a\nb" ⟨3, none, ";", []⟩ ⟨true, some ""⟩
      = (⟨3, none, ";", []⟩, ⟨true, some "a\nb\n"⟩, none)
    ∧ validate_record "a\nb" = some .invalidRecord :=
  ⟨by decide, by decide, by decide⟩

/-- Claim C4: for `buffer_size ≥ 1`, after any sequence of buffered writes
from a fresh logger the buffer length never exceeds `buffer_size`; and a
call whose append makes the length reach exactly `buffer_size` flushes
within that call, returning with an empty buffer. -/
theorem buffer_occupancy_invariant
    (cap : Int) (hcap : 1 ≤ cap) (records : List String)
    (headers : Option (List String)) (fs fs2 : FileSystem)
    (l : LoggerCSV) (r : String)
    (hsize : l.buffer_size = cap)
    (hfull : (l.buffer.length : Int) + 1 = cap) :
    ((runBuffered records (⟨cap, headers, ";", []⟩, fs)).1.buffer.length : Int) ≤ cap
    ∧ (write_record_with_buffer true r l fs2).1.buffer = [] := by
  constructor
  · have h0 : (((⟨cap, headers, ";", []⟩ : LoggerCSV)).buffer.length : Int) < cap := by
      simp only [List.length_nil, Int.natCast_zero]
      omega
    exact le_of_lt (runBuffered_occupancy cap hcap records ⟨cap, headers, ";", []⟩ fs rfl h0).2
  · have hb : buffer_full (add_record_to_buffer l r) = true := by
      simp only [buffer_full, add_record_to_buffer, List.length_append,
        List.length_singleton, hsize, ge_iff_le, decide_eq_true_eq]
      push_cast
      omega
    rw [write_buffered_eq, if_pos hb, write_buffer_to_file_true]

/-- Witness for C4: capacity two, three records; and a logger one short of
capacity flushing within the call. -/
theorem buffer_occupancy_invariant_holds :
    ((runBuffered ["a", "b", "c"] (⟨2, none, ";", []⟩, ⟨true, some ""⟩)).1.buffer.length : Int) ≤ 2
    ∧ (write_record_with_buffer true "y" ⟨2, none, ";", ["x"]⟩ ⟨true, some ""⟩).1.buffer = [] :=
  buffer_occupancy_invariant 2 (by decide) ["a", "b", "c"] none ⟨true, some ""⟩
    ⟨true, some ""⟩ ⟨2, none, ";", ["x"]⟩ "y" rfl (by decide)

/-- Claim C5: at construction, the header line is written if and only if
header columns were supplied and the target file did not exist; when written
it is exactly the columns joined by the delimiter `";"` terminated by a
single newline; constructing over an existing file (with any headers) writes
nothing and leaves the content unchanged. -/
theorem header_written_iff_new_file
    (cap : Int) (hs : List String) (headers : Option (List String)) (c : String) :
    loggerCSV_init cap (some hs) ⟨true, none⟩
      = (.ok ⟨cap, some hs, ";", []⟩, ⟨true, some (strJoin ";" hs ++ "\n")⟩)
    ∧ loggerCSV_init cap none ⟨true, none⟩
      = (.ok ⟨cap, none, ";", []⟩, ⟨true, none⟩)
    ∧ loggerCSV_init cap headers ⟨true, some c⟩
      = (.ok ⟨cap, headers, ";", []⟩, ⟨true, some c⟩) :=
  ⟨rfl, rfl, rfl⟩

/-- Claim C6: when the mount point is not stat-able, construction fails with
`SDNotMountedError` and the filesystem is untouched — no file is created or
written, and the mount state is left as it was (the logger never mounts
storage itself). -/
theorem unmounted_init_fails
    (cap : Int) (headers : Option (List String)) (fopt : Option String) :
    loggerCSV_init cap headers ⟨false, fopt⟩
      = (.error .sdNotMounted, ⟨false, fopt⟩) := rfl

/-- Claim C7: for a record without an embedded newline, `write_record`
appends the record followed by a single newline to the file (append mode)
and returns the logger unchanged — in particular `pending_records` is
neither read nor cleared. -/
theorem write_record_bypasses_buffer
    (record : String) (l : LoggerCSV) (fs : FileSystem)
    (hnl : contains_newline record = false) :
    write_record true record l fs = (l, appendToFile fs (record ++ "\n"), none)
    ∧ recordLines (record ++ "\n") = [record] := by
  refine ⟨rfl, ?_⟩
  have hr : '\n' ∉ record.data := by simpa [contains_newline] using hnl
  have hn : ("\n" : String).data = ['\n'] := rfl
  have hdata : (record ++ "\n").data = record.data ++ '\n' :: [] := by
    rw [String.data_append, hn]
  unfold recordLines
  rw [hdata, linesAux_line_append record.data [] hr]
  rfl

/-- Witness for C7: a concrete immediate write with unrelated pending
records in the buffer. -/
theorem write_record_bypasses_buffer_holds :
    write_record true "c1" ⟨3, none, ";", ["p"]⟩ ⟨true, some "h\n"⟩
      = (⟨3, none, ";", ["p"]⟩, appendToFile ⟨true, some "h\n"⟩ ("c1" ++ "\n"), none)
    ∧ recordLines ("c1" ++ "\n") = ["c1"] :=
  write_record_bypasses_buffer "c1" ⟨3, none, ";", ["p"]⟩ ⟨true, some "h\n"⟩ (by decide)

/-- Claim C8: destruction with `0 < n < buffer_size` pending records flushes
exactly those records in order (the appended block reads back as those
lines) and empties the buffer; destruction with an empty buffer performs no
file write, so a second close after a flushing close is a safe no-op. -/
theorem close_flushes_pending
    (l : LoggerCSV) (fs fs3 : FileSystem) (cap3 : Int) (hdr3 : Option (List String))
    (h0 : l.buffer ≠ []) (hlt : (l.buffer.length : Int) < l.buffer_size)
    (hnl : ∀ r ∈ l.buffer, contains_newline r = false) :
    logger_del true l fs
      = ({ l with buffer := [] },
          appendToFile fs (strJoin "\n" l.buffer ++ "\n"), none)
    ∧ recordLines (strJoin "\n" l.buffer ++ "\n") = l.buffer
    ∧ logger_del true { l with buffer := [] }
        (appendToFile fs (strJoin "\n" l.buffer ++ "\n"))
      = ({ l with buffer := [] },
          appendToFile fs (strJoin "\n" l.buffer ++ "\n"), none)
    ∧ logger_del true ⟨cap3, hdr3, ";", []⟩ fs3 = (⟨cap3, hdr3, ";", []⟩, fs3, none) := by
  refine ⟨?_, ?_, rfl, rfl⟩
  · have hne : l.buffer.isEmpty = false := by
      rcases hb : l.buffer with _ | ⟨x, xs⟩
      · exact absurd hb h0
      · rfl
    unfold logger_del
    rw [hne]
    simp only [Bool.false_eq_true, if_false]
    exact write_buffer_to_file_true l fs
  · rw [strJoin_newline_catRecords l.buffer h0]
    exact recordLines_catRecords l.buffer hnl

/-- Witness for C8: two pending records at capacity three, followed by the
second (no-op) close, and an empty-buffer close. -/
theorem close_flushes_pending_holds :
    logger_del true ⟨3, none, ";", ["r1", "r2"]⟩ ⟨true, some "h\n"⟩
      = (⟨3, none, ";", []⟩,
          appendToFile ⟨true, some "h\n"⟩ (strJoin "\n" ["r1", "r2"] ++ "\n"), none)
    ∧ recordLines (strJoin "\n" ["r1", "r2"] ++ "\n") = ["r1", "r2"]
    ∧ logger_del true ⟨3, none, ";", []⟩
        (appendToFile ⟨true, some "h\n"⟩ (strJoin "\n" ["r1", "r2"] ++ "\n"))
      = (⟨3, none, ";", []⟩,
          appendToFile ⟨true, some "h\n"⟩ (strJoin "\n" ["r1", "r2"] ++ "\n"), none)
    ∧ logger_del true ⟨4, some ["x"], ";", []⟩ ⟨true, none⟩
      = (⟨4, some ["x"], ";", []⟩, ⟨true, none⟩, none) :=
  close_flushes_pending ⟨3, none, ";", ["r1", "r2"]⟩ ⟨true, some "h\n"⟩ ⟨true, none⟩
    4 (some ["x"]) (by decide) (by decide) (by decide)

/-- Claim C9: flushing while `pending_records` is empty is not a no-op —
serializing the empty buffer yields `"\n"`, so exactly one blank line is
appended to the file and the buffer stays empty. -/
theorem empty_buffer_flush_appends_blank_line
    (cap : Int) (headers : Option (List String)) (fs : FileSystem) :
    write_buffer_to_file true ⟨cap, headers, ";", []⟩ fs
      = (⟨cap, headers, ";", []⟩, appendToFile fs "\n", none)
    ∧ recordLines "\n" = [""] :=
  ⟨rfl, rfl⟩

/-- Claim C10: construction does not validate `buffer_size`; with any
`buffer_size ≤ 0` construction succeeds (on a mounted filesystem), and every
buffered write finds the buffer full right after the append, flushing within
that call, so the buffer never retains a record across calls and the record
just submitted is written out. -/
theorem nonpositive_capacity_always_flushes
    (cap : Int) (hcap : cap ≤ 0) (headers : Option (List String))
    (fopt : Option String) (l : LoggerCSV) (fs : FileSystem) (r : String)
    (hsize : l.buffer_size = cap) :
    (loggerCSV_init cap headers ⟨true, fopt⟩).1 = .ok ⟨cap, headers, ";", []⟩
    ∧ write_record_with_buffer true r l fs
      = ({ l with buffer := [] },
          appendToFile fs (strJoin "\n" (l.buffer ++ [r]) ++ "\n"), none) := by
  refine ⟨rfl, ?_⟩
  have hb : buffer_full (add_record_to_buffer l r) = true := by
    simp only [buffer_full, add_record_to_buffer, List.length_append,
      List.length_singleton, hsize, ge_iff_le, decide_eq_true_eq]
    push_cast
    omega
  rw [write_buffered_eq, if_pos hb, write_buffer_to_file_true]
  rfl

/-- Witness for C10: capacity zero — construction succeeds and a single
buffered write flushes immediately. -/
theorem nonpositive_capacity_always_flushes_holds :
    (loggerCSV_init 0 none ⟨true, none⟩).1 = .ok ⟨0, none, ";", []⟩
    ∧ write_record_with_buffer true "a" ⟨0, none, ";", []⟩ ⟨true, some ""⟩
      = (⟨0, none, ";", []⟩,
          appendToFile ⟨true, some ""⟩ (strJoin "\n" ([] ++ ["a"]) ++ "\n"), none) :=
  nonpositive_capacity_always_flushes 0 (by decide) none none
    ⟨0, none, ";", []⟩ ⟨true, some ""⟩ "a" rfl
